import Mathlib

/-!
Shallow embedding of `surrealdb_util` (`src/lib.rs`), a typed access layer
over the SurrealDB engine.  The engine's value union, its coercion helpers
(`as_string`, `as_int`, ...), the text parsers (UUID, datetime, duration)
and the engine round-trip itself are external to the repository; they are
modelled here as explicit Lean functions or function-valued parameters,
while every definition of the repository's own code (`ArgsBuilder`,
`QueryBuilder::execute`, `Record::remove`, the `FromValue` impls and
`ValueCast::cast`) is translated statement by statement from the source.
-/

set_option autoImplicit false

namespace SurrealUtil

/-- Opaque payload of the external `chrono::DateTime<Utc>` / `sql::Datetime`
types: only its identity matters to this layer. -/
structure Datetime where
  ticks : Int
deriving Repr

/-- Opaque payload of `std::time::Duration` / `sql::Duration`. -/
structure Dur where
  nanos : Nat
deriving Repr

/-- Opaque payload of `uuid::Uuid`. -/
structure Uuid where
  text : String
deriving Repr

/-- Opaque payload of `bigdecimal::BigDecimal`. -/
structure Decimal where
  num : Int
deriving Repr

/-- Opaque payload of an `f64`; never computed with, only carried. -/
structure Float64 where
  bits : Nat
deriving Repr

/-- The external `sql::Number` union: 64-bit integer, 64-bit float, or
arbitrary-precision decimal. -/
inductive Number where
  | int (i : Int)
  | float (f : Float64)
  | decimal (d : Decimal)
deriving Repr

/-- Identifier component of a record reference (`sql::Id`); this layer only
ever observes its textual form (`t.id.to_string()`), so it is modelled by
that string. -/
structure Id where
  textual : String
deriving Repr

/-- The external `sql::Thing` record reference: a table and an identifier. -/
structure Thing where
  tb : String
  id : Id
deriving Repr

/-- The external `sql::Value` tagged union, restricted to the variants this
repository distinguishes; every variant the code does not match on falls
under the same catch-all arms, so one representative per matched tag
suffices. `vObject` carries the entry list of a `BTreeMap<String, Value>`
(strictly sorted by key). -/
inductive Value where
  | vNone
  | vNull
  | vTrue
  | vFalse
  | strand (s : String)
  | number (n : Number)
  | duration (d : Dur)
  | datetime (d : Datetime)
  | uuid (u : Uuid)
  | thing (t : Thing)
  | vObject (fields : List (String × Value))
  | array (elems : List Value)
deriving Repr

/-- Entry list of the external `sql::Object` (a `BTreeMap<String, Value>`). -/
abbrev Object := List (String × Value)

/-! ### Model of the external `BTreeMap<String, Value>` operations

`BTreeMap` is represented by its strictly key-sorted entry list;
`mapInsert` is `BTreeMap::insert` (overwrite on an existing key, keep the
list sorted otherwise), `objGet` is lookup, and `objRemove` is
`BTreeMap::remove` returning the removed value together with the remaining
entries. -/

/-- `BTreeMap::insert` on the entry list: overwrite the value at an equal
key, otherwise append a fresh entry.  (The tree keeps its entries ordered
by key; no claim of this development observes entry order, only the map it
denotes, so the entry list records insertion order instead — the spec
itself notes the structure is lookup-only and iteration order irrelevant.) -/
def mapInsert : List (String × Value) → String → Value → List (String × Value)
  | [], k, v => [(k, v)]
  | (k', v') :: rest, k, v =>
    if k = k' then (k, v) :: rest
    else (k', v') :: mapInsert rest k v

/-- `BTreeMap::get` on the entry list. -/
def objGet : List (String × Value) → String → Option Value
  | [], _ => Option.none
  | (k', v') :: rest, k => if k = k' then some v' else objGet rest k

/-- `BTreeMap::remove` on the entry list: the removed value and the
remaining entries, or `none` when the key is absent. -/
def objRemove : List (String × Value) → String → Option (Value × List (String × Value))
  | [], _ => Option.none
  | (k', v') :: rest, k =>
    if k = k' then some (v', rest)
    else (objRemove rest k).map (fun p => (p.1, (k', v') :: p.2))

/-- `true` when no key occurs twice in the entry list; an invariant every
`BTreeMap`-produced entry list satisfies. -/
def nodupKeys : List (String × Value) → Bool
  | [] => Bool.true
  | (k, _) :: rest => (objGet rest k).isNone && nodupKeys rest

/-! ### Models of the external `Value` coercions and parsers

The repository calls `as_string`, `as_datetime`, `as_int`, `as_float`,
`as_decimal`, `as_duration` and the UUID text parser from its dependencies.
They are total functions there; here each is a concrete total model whose
identity behaviour on the same-kind payload mirrors the crates
(`as_string` of a strand is its text, `as_datetime` of a datetime is that
datetime, ...); on payloads this repository never reaches them with, the
values chosen are immaterial representatives. -/

/-- Models the external text-to-datetime parse-with-default used by
`Value::as_datetime` on strands; total, as in the engine. -/
def parseDatetimeD (s : String) : Datetime :=
  ⟨(s.length : Int)⟩

/-- Models the external text-to-duration parse-with-default used by
`Value::as_duration` on strands; total, as in the engine. -/
def parseDurationD (s : String) : Dur :=
  ⟨s.length⟩

/-- Models `uuid::Uuid::from_str`: only the success/failure split is
observable to this layer. -/
def parseUuid (s : String) : Option Uuid :=
  if s.length = 36 then some ⟨s⟩ else Option.none

/-- Models the external `Value::as_string`. -/
def Value.as_string : Value → String
  | .strand s => s
  | _ => ""

/-- Models the external `Value::as_datetime` (the `.0` payload). -/
def Value.as_datetime : Value → Datetime
  | .datetime d => d
  | .strand s => parseDatetimeD s
  | _ => ⟨0⟩

/-- Models the external `Value::as_int`. -/
def Value.as_int : Value → Int
  | .number (.int i) => i
  | .number (.float f) => (f.bits : Int)
  | .number (.decimal d) => d.num
  | .duration d => (d.nanos : Int)
  | .datetime d => d.ticks
  | _ => 0

/-- Models the external `Value::as_float`; the result payload is opaque. -/
def Value.as_float : Value → Float64
  | .number (.float f) => f
  | .number (.int i) => ⟨i.natAbs⟩
  | .number (.decimal d) => ⟨d.num.natAbs⟩
  | .duration d => ⟨d.nanos⟩
  | .datetime d => ⟨d.ticks.natAbs⟩
  | _ => ⟨0⟩

/-- Models the external `Value::as_decimal`. -/
def Value.as_decimal : Value → Decimal
  | .number (.decimal d) => d
  | .number (.int i) => ⟨i⟩
  | .number (.float f) => ⟨(f.bits : Int)⟩
  | _ => ⟨0⟩

/-- Models the external `Value::as_duration` (the `.0` payload). -/
def Value.as_duration : Value → Dur
  | .duration d => d
  | .strand s => parseDurationD s
  | _ => ⟨0⟩

/-- `Id::to_string`. -/
def Id.toText (i : Id) : String :=
  i.textual

/-! ### The repository's own error type and data structures -/

/-- Opaque payload of `surrealdb::Error`. -/
structure SurrealError where
  msg : String
deriving Repr

/-- `enum Error { CastFailed, InvalidKey(&str), Surrealdb(surrealdb::Error) }`. -/
inductive Error where
  | castFailed
  | invalidKey (k : String)
  | surrealdb (e : SurrealError)
deriving Repr

/-- Opaque `surrealdb::Session`. -/
structure Session where
  tag : Nat

/-- One per-statement outcome of `Datastore::execute` (`surrealdb::Response`):
the timing string and `result : Result<Value, surrealdb::Error>`. -/
structure Response where
  time : String
  result : Except SurrealError Value

/-- The external `surrealdb::Datastore`, modelled by its `execute` entry
point: query text, session, optional bound variables, strict flag, giving
either a top-level engine error or the per-statement outcomes. -/
structure Datastore where
  exec : String → Session → Option Object → Bool → Except SurrealError (List Response)

/-- `pub struct Db(Datastore, Session)`. -/
structure Db where
  ds : Datastore
  sess : Session

/-- `Db::new`. -/
def Db.new (ds : Datastore) (sess : Session) : Db :=
  ⟨ds, sess⟩

/-- `pub struct Record(Object)`. -/
structure Record where
  fields : Object
deriving Repr

/-- `Record::remove`: `self.0.remove(k).map(|v| v.into()).ok_or(Error::InvalidKey(k))`.
The Rust method mutates the record in place; that state passing is made
explicit by returning the post-state next to the result (`BTreeMap::remove`
leaves the map untouched when the key is absent). -/
def Record.remove (self : Record) (k : String) : Except Error Value × Record :=
  match objRemove self.fields k with
  | some (v, rest) => (.ok v, ⟨rest⟩)
  | Option.none => (.error (.invalidKey k), self)

/-- `pub struct ArgsBuilder(BTreeMap<String, Value>)`. -/
structure ArgsBuilder where
  entries : Object
deriving Repr

/-- `ArgsBuilder::default()`. -/
def ArgsBuilder.empty : ArgsBuilder :=
  ⟨[]⟩

/-- `ArgsBuilder::arg`: `self.0.insert(key.into(), value.into())`; the
`&mut self` chaining is state passing here. -/
def ArgsBuilder.arg (self : ArgsBuilder) (key : String) (value : Value) : ArgsBuilder :=
  ⟨mapInsert self.entries key value⟩

/-- `impl From<ArgsBuilder> for Value`: `value.0.into()`, the builder's map
as an object-shaped `Value`. -/
def ArgsBuilder.intoValue (self : ArgsBuilder) : Value :=
  .vObject self.entries

/-- `ArgsBuilder::sub_args`: run the configuration closure on a fresh
default builder, then insert its object-shaped conversion under `key`. -/
def ArgsBuilder.sub_args (self : ArgsBuilder) (key : String)
    (f : ArgsBuilder → ArgsBuilder) : ArgsBuilder :=
  let sub := f ArgsBuilder.empty
  ⟨mapInsert self.entries key sub.intoValue⟩

/-- `pub struct QueryBuilder<'a> { db, sql, args }`. -/
structure QueryBuilder where
  db : Db
  sql : String
  args : ArgsBuilder

/-- `QueryBuilder::new`. -/
def QueryBuilder.new (db : Db) (sql : String) : QueryBuilder :=
  ⟨db, sql, ArgsBuilder.empty⟩

/-- `Db::query`. -/
def Db.query (db : Db) (sql : String) : QueryBuilder :=
  QueryBuilder.new db sql

/-- `QueryBuilder::arg`, pass-through to the internal builder. -/
def QueryBuilder.arg (self : QueryBuilder) (key : String) (value : Value) : QueryBuilder :=
  { self with args := self.args.arg key value }

/-- `QueryBuilder::sub_args`, pass-through to the internal builder. -/
def QueryBuilder.sub_args (self : QueryBuilder) (key : String)
    (f : ArgsBuilder → ArgsBuilder) : QueryBuilder :=
  { self with args := self.args.sub_args key f }

/-- `QueryBuilder::execute`, translated combinator by combinator: the `?`
on the engine call wraps a top-level engine error via `From`; then
`.into_iter().next()` is `head?`, `.map(|r| r.result.map(shape dispatch))`
keeps only the first statement, `.unwrap_or(Ok(default))` turns a missing
statement into the empty vector, and `.map_err(|e| e.into())` wraps a
statement-level engine error. -/
def QueryBuilder.execute (self : QueryBuilder) (strict : Bool) : Except Error (List Record) :=
  match self.db.ds.exec self.sql self.db.sess (some self.args.entries) strict with
  | .error e => .error (.surrealdb e)
  | .ok responses =>
    (((responses.head?).map (fun (r : Response) => r.result.map (fun v =>
        match v with
        | .vObject obj => [Record.mk obj]
        | .array arr => arr.filterMap (fun w =>
            match w with
            | .vObject obj => some (Record.mk obj)
            | _ => Option.none)
        | _ => []))).getD (Except.ok [])).mapError (fun e => Error.surrealdb e)

/-! ### The casting framework (`trait FromValue`, one impl per target) -/

/-- `pub trait FromValue { fn from_value(value: Value) -> Result<Self> }`. -/
class FromValue (α : Type) where
  from_value : Value → Except Error α

/-- `impl FromValue for String`: `Strand(_) => Ok(value.as_string())`. -/
def stringFromValue (value : Value) : Except Error String :=
  match value with
  | .strand _ => .ok value.as_string
  | _ => .error .castFailed

instance instFromValueString : FromValue String :=
  ⟨stringFromValue⟩

/-- `impl FromValue for bool`: `True => Ok(true), False => Ok(false)`. -/
def boolFromValue (value : Value) : Except Error Bool :=
  match value with
  | .vTrue => .ok Bool.true
  | .vFalse => .ok Bool.false
  | _ => .error .castFailed

instance instFromValueBool : FromValue Bool :=
  ⟨boolFromValue⟩

/-- `impl FromValue for DateTime<Utc>`:
`Datetime(_) | Strand(_) => Ok(value.as_datetime().0)`. -/
def datetimeFromValue (value : Value) : Except Error Datetime :=
  match value with
  | .datetime _ | .strand _ => .ok value.as_datetime
  | _ => .error .castFailed

instance instFromValueDatetime : FromValue Datetime :=
  ⟨datetimeFromValue⟩

/-- `impl FromValue for i64`:
`Number(_) | Duration(_) | Datetime(_) => Ok(value.as_int())`. -/
def i64FromValue (value : Value) : Except Error Int :=
  match value with
  | .number _ | .duration _ | .datetime _ => .ok value.as_int
  | _ => .error .castFailed

instance instFromValueI64 : FromValue Int :=
  ⟨i64FromValue⟩

/-- `impl FromValue for f64`:
`Number(_) | Duration(_) | Datetime(_) => Ok(value.as_float())`. -/
def f64FromValue (value : Value) : Except Error Float64 :=
  match value with
  | .number _ | .duration _ | .datetime _ => .ok value.as_float
  | _ => .error .castFailed

instance instFromValueF64 : FromValue Float64 :=
  ⟨f64FromValue⟩

/-- `impl FromValue for BigDecimal`: `Number(_) => Ok(value.as_decimal())`. -/
def decimalFromValue (value : Value) : Except Error Decimal :=
  match value with
  | .number _ => .ok value.as_decimal
  | _ => .error .castFailed

instance instFromValueDecimal : FromValue Decimal :=
  ⟨decimalFromValue⟩

/-- `impl FromValue for Duration`:
`Strand(_) | Duration(_) => Ok(value.as_duration().0)`. -/
def durationFromValue (value : Value) : Except Error Dur :=
  match value with
  | .strand _ | .duration _ => .ok value.as_duration
  | _ => .error .castFailed

instance instFromValueDuration : FromValue Dur :=
  ⟨durationFromValue⟩

/-- `impl FromValue for Uuid`: strand text parsed (`?` on failure gives
`CastFailed`), a UUID payload unwrapped (`id.0`), a record reference's
identifier rendered to text and parsed; every other tag `CastFailed`. -/
def uuidFromValue (value : Value) : Except Error Uuid :=
  match value with
  | .strand s =>
    match parseUuid s with
    | some id => .ok id
    | Option.none => .error .castFailed
  | .uuid id => .ok id
  | .thing t =>
    match parseUuid t.id.toText with
    | some id => .ok id
    | Option.none => .error .castFailed
  | _ => .error .castFailed

instance instFromValueUuid : FromValue Uuid :=
  ⟨uuidFromValue⟩

/-- `impl ValueCast for Value`: `fn cast<T: FromValue>(self) -> Result<T>`. -/
def Value.cast (α : Type) [FromValue α] (v : Value) : Except Error α :=
  FromValue.from_value v

/-- `impl<T: FromValue> FromValue for Option<T>`:
`None | Null => Ok(None), _ => Some(value.cast()).transpose()`
(the transpose of `Some` applied to the cast is exactly mapping the
successful cast through `Some`). -/
def optionFromValue (α : Type) [FromValue α] (value : Value) : Except Error (Option α) :=
  match value with
  | .vNone | .vNull => .ok Option.none
  | _ => (Value.cast α value).map some

instance instFromValueOption (α : Type) [FromValue α] : FromValue (Option α) :=
  ⟨optionFromValue α⟩

/-! ### Boolean tag observers, used to state the rejection claims -/

/-- `true` on the strand (string) tag. -/
def Value.isStrand : Value → Bool
  | .strand _ => Bool.true
  | _ => Bool.false

/-- `true` on the two boolean tags. -/
def Value.isBool : Value → Bool
  | .vTrue | .vFalse => Bool.true
  | _ => Bool.false

/-- `true` on the datetime tag. -/
def Value.isDatetime : Value → Bool
  | .datetime _ => Bool.true
  | _ => Bool.false

/-- `true` on the number tag. -/
def Value.isNumber : Value → Bool
  | .number _ => Bool.true
  | _ => Bool.false

/-- `true` on the duration tag. -/
def Value.isDuration : Value → Bool
  | .duration _ => Bool.true
  | _ => Bool.false

/-- `true` on the UUID tag. -/
def Value.isUuid : Value → Bool
  | .uuid _ => Bool.true
  | _ => Bool.false

/-- `true` on the record-reference tag. -/
def Value.isThing : Value → Bool
  | .thing _ => Bool.true
  | _ => Bool.false

/-- `true` on the none and null tags, the two the optional cast absorbs. -/
def Value.isNoneOrNull : Value → Bool
  | .vNone | .vNull => Bool.true
  | _ => Bool.false

/-! ### Map lemmas for the `BTreeMap` model -/

/-- Looking up the freshly inserted key finds the new value. -/
theorem objGet_mapInsert_self (l : List (String × Value)) (k : String) (v : Value) :
    objGet (mapInsert l k v) k = some v := by
  induction l with
  | nil => simp [mapInsert, objGet]
  | cons hd tl ih =>
    obtain ⟨k', v'⟩ := hd
    by_cases h2 : k = k'
    · simp [mapInsert, h2, objGet]
    · simp [mapInsert, h2, objGet, ih]

/-- Inserting one key leaves every other key's lookup unchanged. -/
theorem objGet_mapInsert_ne (l : List (String × Value)) (k k' : String) (v : Value)
    (h : k' ≠ k) : objGet (mapInsert l k v) k' = objGet l k' := by
  induction l with
  | nil => simp [mapInsert, objGet, h]
  | cons hd tl ih =>
    obtain ⟨k0, v0⟩ := hd
    by_cases h2 : k = k0
    · subst h2
      simp [mapInsert, objGet, h]
    · simp [mapInsert, h2, objGet, ih]

/-- A key that does not occur cannot be removed. -/
theorem objRemove_eq_none_of_get_none (l : List (String × Value)) (k : String)
    (h : objGet l k = Option.none) : objRemove l k = Option.none := by
  induction l with
  | nil => rfl
  | cons hd tl ih =>
    obtain ⟨k', v'⟩ := hd
    by_cases hk : k = k'
    · simp [objGet, hk] at h
    · simp [objGet, hk] at h
      simp [objRemove, hk, ih h]

/-- Removing a present key yields its value and, on duplicate-free keys
(the `BTreeMap` invariant), erases the key from the remaining entries. -/
theorem objRemove_eq_some_of_get_some (l : List (String × Value)) (k : String) (v : Value)
    (h : objGet l k = some v) :
    ∃ rest, objRemove l k = some (v, rest) ∧
      (nodupKeys l = Bool.true → objGet rest k = Option.none) := by
  induction l with
  | nil => simp [objGet] at h
  | cons hd tl ih =>
    obtain ⟨k', v'⟩ := hd
    by_cases hk : k = k'
    · simp [objGet, hk] at h
      refine ⟨tl, by simp [objRemove, hk, h], ?_⟩
      intro hdup
      simp [nodupKeys, Option.isNone_iff_eq_none] at hdup
      subst hk
      exact hdup.1
    · simp [objGet, hk] at h
      obtain ⟨rest, hr, hn⟩ := ih h
      refine ⟨(k', v') :: rest, by simp [objRemove, hk, hr], ?_⟩
      intro hdup
      simp [nodupKeys, Option.isNone_iff_eq_none] at hdup
      simp [objGet, hk, hn hdup.2]

/-! ### Claims C6, C7, C8, C10 -/

/-- C6: removing a present key succeeds with that field's value and deletes
the field, so a second removal of the same key fails with `InvalidKey`
carrying the key; removing a key that was never present fails immediately
with `InvalidKey` carrying the key.  (The present-key case assumes the
entry list satisfies the `BTreeMap` no-duplicate-keys invariant.) -/
theorem record_remove_extraction (r : Record) (k : String) :
    (∀ v : Value, objGet r.fields k = some v → nodupKeys r.fields = Bool.true →
      ∃ r' : Record, r.remove k = (.ok v, r') ∧
        objGet r'.fields k = Option.none ∧
        r'.remove k = (.error (.invalidKey k), r')) ∧
    (objGet r.fields k = Option.none → (r.remove k).1 = .error (.invalidKey k)) := by
  constructor
  · intro v hget hnd
    obtain ⟨rest, hr, hn⟩ := objRemove_eq_some_of_get_some r.fields k v hget
    refine ⟨⟨rest⟩, ?_, hn hnd, ?_⟩
    · simp [Record.remove, hr]
    · simp [Record.remove, objRemove_eq_none_of_get_none rest k (hn hnd)]
  · intro hget
    simp [Record.remove, objRemove_eq_none_of_get_none r.fields k hget]

/-- Witness for C6 at the one-field record `{x: true}` and key `x`. -/
theorem record_remove_extraction_witness :
    (∃ r' : Record, (Record.mk [("x", Value.vTrue)]).remove "x" = (.ok Value.vTrue, r') ∧
      objGet r'.fields "x" = Option.none ∧
      r'.remove "x" = (.error (.invalidKey "x"), r')) ∧
    ((Record.mk []).remove "x").1 = .error (.invalidKey "x") :=
  ⟨(record_remove_extraction ⟨[("x", Value.vTrue)]⟩ "x").1 Value.vTrue rfl rfl,
   (record_remove_extraction ⟨[]⟩ "x").2 rfl⟩

/-- C7: `arg "a" 1` then `sub_args "b" (arg "c" 2)` converts to an
object-shaped value with exactly `a ↦ 1` and `b ↦ {c ↦ 2}`; the nested
closure runs on a fresh empty builder whose conversion is stored under
`"b"`. -/
theorem args_nesting_example :
    ((ArgsBuilder.empty.arg "a" (Value.number (.int 1))).sub_args "b"
        (fun s => s.arg "c" (Value.number (.int 2)))).intoValue =
      Value.vObject [("a", Value.number (.int 1)),
        ("b", Value.vObject [("c", Value.number (.int 2))])] := by
  rfl

/-- C8: binding the same key twice is silent last-write-wins — the second
value is the one recorded — and no other key's binding is disturbed (the
operation has no failure outcome at all: it returns the builder). -/
theorem arg_overwrite_last_write_wins (b : ArgsBuilder) (k k' : String)
    (v1 v2 : Value) :
    objGet ((b.arg k v1).arg k v2).entries k = some v2 ∧
    (k' ≠ k → objGet ((b.arg k v1).arg k v2).entries k' = objGet b.entries k') := by
  constructor
  · exact objGet_mapInsert_self _ k v2
  · intro h
    show objGet (mapInsert (mapInsert b.entries k v1) k v2) k' = _
    rw [objGet_mapInsert_ne _ k k' v2 h, objGet_mapInsert_ne _ k k' v1 h]

/-- Witness for C8 at keys `x`, `y` and values `1`, `2`. -/
theorem arg_overwrite_witness :
    objGet ((ArgsBuilder.empty.arg "x" (Value.number (.int 1))).arg "x"
        (Value.number (.int 2))).entries "x" = some (Value.number (.int 2)) ∧
    objGet ((ArgsBuilder.empty.arg "x" (Value.number (.int 1))).arg "x"
        (Value.number (.int 2))).entries "y" = objGet ArgsBuilder.empty.entries "y" :=
  ⟨(arg_overwrite_last_write_wins ArgsBuilder.empty "x" "y"
      (Value.number (.int 1)) (Value.number (.int 2))).1,
   (arg_overwrite_last_write_wins ArgsBuilder.empty "x" "y"
      (Value.number (.int 1)) (Value.number (.int 2))).2 (by decide)⟩

/-- C10: removing an absent key is atomic — it returns `InvalidKey` with
that key and the record is exactly the one passed in, every field intact. -/
theorem record_remove_absent_unchanged (r : Record) (k : String)
    (h : objGet r.fields k = Option.none) :
    r.remove k = (.error (.invalidKey k), r) := by
  simp [Record.remove, objRemove_eq_none_of_get_none r.fields k h]

/-- Witness for C10 at the record `{a: true}` and absent key `b`. -/
theorem record_remove_absent_unchanged_witness :
    (Record.mk [("a", Value.vTrue)]).remove "b" =
      (.error (.invalidKey "b"), Record.mk [("a", Value.vTrue)]) :=
  record_remove_absent_unchanged ⟨[("a", Value.vTrue)]⟩ "b" rfl

/-! ### Claims about the casting framework -/

/-- The optional cast on a value that is neither none nor null is the
direct cast with its success mapped through `some`; shared by the claims
about optional composition and totality. -/
theorem optionCast_eq_map_some (α : Type) [FromValue α] (v : Value)
    (h : v.isNoneOrNull = Bool.false) :
    Value.cast (Option α) v = (Value.cast α v).map some := by
  cases v <;>
    simp_all [Value.cast, FromValue.from_value, instFromValueOption, optionFromValue,
      Value.isNoneOrNull]

/-- C2: every primitive value whose tag is in the target's accepted set
casts successfully, and the cast round-trips semantically: a strand gives
back its string, the boolean values give back `true`/`false`, a datetime
payload is returned as is (a strand is parsed), an integer number casts to
that integer, a float number to that float, a decimal number to that
decimal, a duration payload to itself (a strand is parsed); the remaining
accepted tags (duration/datetime into the numeric targets) are coerced and
always succeed. -/
theorem matched_cast_succeeds_roundtrip :
    (∀ s, Value.cast String (.strand s) = .ok s) ∧
    (Value.cast Bool .vTrue = .ok Bool.true) ∧
    (Value.cast Bool .vFalse = .ok Bool.false) ∧
    (∀ d, Value.cast Datetime (.datetime d) = .ok d) ∧
    (∀ s, ∃ d, Value.cast Datetime (.strand s) = .ok d) ∧
    (∀ i, Value.cast Int (.number (.int i)) = .ok i) ∧
    (∀ n, ∃ i, Value.cast Int (.number n) = .ok i) ∧
    (∀ d, ∃ i, Value.cast Int (.duration d) = .ok i) ∧
    (∀ d, ∃ i, Value.cast Int (.datetime d) = .ok i) ∧
    (∀ f, Value.cast Float64 (.number (.float f)) = .ok f) ∧
    (∀ n, ∃ x, Value.cast Float64 (.number n) = .ok x) ∧
    (∀ d, ∃ x, Value.cast Float64 (.duration d) = .ok x) ∧
    (∀ d, ∃ x, Value.cast Float64 (.datetime d) = .ok x) ∧
    (∀ d, Value.cast Decimal (.number (.decimal d)) = .ok d) ∧
    (∀ n, ∃ x, Value.cast Decimal (.number n) = .ok x) ∧
    (∀ d, Value.cast Dur (.duration d) = .ok d) ∧
    (∀ s, ∃ x, Value.cast Dur (.strand s) = .ok x) :=
  ⟨fun _ => rfl, rfl, rfl, fun _ => rfl, fun _ => ⟨_, rfl⟩, fun _ => rfl,
   fun _ => ⟨_, rfl⟩, fun _ => ⟨_, rfl⟩, fun _ => ⟨_, rfl⟩, fun _ => rfl,
   fun _ => ⟨_, rfl⟩, fun _ => ⟨_, rfl⟩, fun _ => ⟨_, rfl⟩, fun _ => rfl,
   fun _ => ⟨_, rfl⟩, fun _ => rfl, fun _ => ⟨_, rfl⟩⟩

/-- C3: for every supported target, a value whose tag is outside the
target's accepted set casts to exactly the `CastFailed` error — the same
uniform error for every rejected (tag, target) pair. -/
theorem mismatched_cast_fails (v : Value) :
    (v.isStrand = Bool.false → Value.cast String v = .error .castFailed) ∧
    (v.isBool = Bool.false → Value.cast Bool v = .error .castFailed) ∧
    (v.isDatetime = Bool.false → v.isStrand = Bool.false →
      Value.cast Datetime v = .error .castFailed) ∧
    (v.isNumber = Bool.false → v.isDuration = Bool.false → v.isDatetime = Bool.false →
      Value.cast Int v = .error .castFailed) ∧
    (v.isNumber = Bool.false → v.isDuration = Bool.false → v.isDatetime = Bool.false →
      Value.cast Float64 v = .error .castFailed) ∧
    (v.isNumber = Bool.false → Value.cast Decimal v = .error .castFailed) ∧
    (v.isStrand = Bool.false → v.isDuration = Bool.false →
      Value.cast Dur v = .error .castFailed) ∧
    (v.isStrand = Bool.false → v.isUuid = Bool.false → v.isThing = Bool.false →
      Value.cast Uuid v = .error .castFailed) := by
  refine ⟨?_, ?_, ?_, ?_, ?_, ?_, ?_, ?_⟩ <;> intro h <;>
    cases v <;>
    simp_all [Value.cast, FromValue.from_value, instFromValueString, stringFromValue,
      instFromValueBool, boolFromValue, instFromValueDatetime, datetimeFromValue,
      instFromValueI64, i64FromValue, instFromValueF64, f64FromValue,
      instFromValueDecimal, decimalFromValue, instFromValueDuration, durationFromValue,
      instFromValueUuid, uuidFromValue, Value.isStrand, Value.isBool, Value.isDatetime,
      Value.isNumber, Value.isDuration, Value.isUuid, Value.isThing]

/-- Witness for C3 at the null value, rejected by all eight targets. -/
theorem mismatched_cast_fails_witness :
    Value.cast String Value.vNull = .error .castFailed ∧
    Value.cast Bool Value.vNull = .error .castFailed ∧
    Value.cast Datetime Value.vNull = .error .castFailed ∧
    Value.cast Int Value.vNull = .error .castFailed ∧
    Value.cast Float64 Value.vNull = .error .castFailed ∧
    Value.cast Decimal Value.vNull = .error .castFailed ∧
    Value.cast Dur Value.vNull = .error .castFailed ∧
    Value.cast Uuid Value.vNull = .error .castFailed :=
  ⟨(mismatched_cast_fails .vNull).1 rfl,
   (mismatched_cast_fails .vNull).2.1 rfl,
   (mismatched_cast_fails .vNull).2.2.1 rfl rfl,
   (mismatched_cast_fails .vNull).2.2.2.1 rfl rfl rfl,
   (mismatched_cast_fails .vNull).2.2.2.2.1 rfl rfl rfl,
   (mismatched_cast_fails .vNull).2.2.2.2.2.1 rfl,
   (mismatched_cast_fails .vNull).2.2.2.2.2.2.1 rfl rfl,
   (mismatched_cast_fails .vNull).2.2.2.2.2.2.2 rfl rfl rfl⟩

/-- C4: for every target, casting none or null to the optional target
succeeds with the absent value; casting any other value to the optional
target is exactly the direct cast with its success wrapped in `some` —
same success, same value, same error. -/
theorem option_cast_composition (α : Type) [FromValue α] :
    (Value.cast (Option α) .vNone = .ok Option.none) ∧
    (Value.cast (Option α) .vNull = .ok Option.none) ∧
    (∀ v : Value, v.isNoneOrNull = Bool.false →
      Value.cast (Option α) v = (Value.cast α v).map some) :=
  ⟨rfl, rfl, fun v h => optionCast_eq_map_some α v h⟩

/-- Witness for C4 at the boolean target and the value `true`. -/
theorem option_cast_composition_witness :
    Value.cast (Option Bool) Value.vTrue = (Value.cast Bool Value.vTrue).map some :=
  (option_cast_composition Bool).2.2 .vTrue rfl

/-- C5: the UUID cast succeeds on a UUID payload (returned as is), on a
strand exactly when its text parses as a UUID (else `CastFailed`), and on
a record reference exactly when its identifier's textual form parses as a
UUID (else `CastFailed`); every other tag is `CastFailed` outright. -/
theorem uuid_cast_spec :
    (∀ u, Value.cast Uuid (.uuid u) = .ok u) ∧
    (∀ s, Value.cast Uuid (.strand s) =
      (match parseUuid s with
       | some id => .ok id
       | Option.none => .error .castFailed)) ∧
    (∀ t : Thing, Value.cast Uuid (.thing t) =
      (match parseUuid t.id.toText with
       | some id => .ok id
       | Option.none => .error .castFailed)) ∧
    (∀ v : Value, v.isStrand = Bool.false → v.isUuid = Bool.false →
      v.isThing = Bool.false → Value.cast Uuid v = .error .castFailed) := by
  refine ⟨fun _ => rfl, fun _ => rfl, fun _ => rfl, ?_⟩
  intro v h1 h2 h3
  cases v <;>
    simp_all [Value.cast, FromValue.from_value, instFromValueUuid, uuidFromValue,
      Value.isStrand, Value.isUuid, Value.isThing]

/-- Witness for C5's rejection clause at an integer number value. -/
theorem uuid_cast_spec_witness :
    Value.cast Uuid (Value.number (.int 0)) = .error .castFailed :=
  uuid_cast_spec.2.2.2 (.number (.int 0)) rfl rfl rfl

/-- C9: casting is total and uniform — for every value and every supported
target (the eight concrete targets, and the optional composition over any
target that itself has the property) the cast returns either a success or
exactly the `CastFailed` error; no other error and no divergence is
possible. -/
theorem cast_total_never_other_error :
    (∀ v : Value, (∃ x, Value.cast String v = .ok x) ∨
      Value.cast String v = .error .castFailed) ∧
    (∀ v : Value, (∃ x, Value.cast Bool v = .ok x) ∨
      Value.cast Bool v = .error .castFailed) ∧
    (∀ v : Value, (∃ x, Value.cast Datetime v = .ok x) ∨
      Value.cast Datetime v = .error .castFailed) ∧
    (∀ v : Value, (∃ x, Value.cast Int v = .ok x) ∨
      Value.cast Int v = .error .castFailed) ∧
    (∀ v : Value, (∃ x, Value.cast Float64 v = .ok x) ∨
      Value.cast Float64 v = .error .castFailed) ∧
    (∀ v : Value, (∃ x, Value.cast Decimal v = .ok x) ∨
      Value.cast Decimal v = .error .castFailed) ∧
    (∀ v : Value, (∃ x, Value.cast Dur v = .ok x) ∨
      Value.cast Dur v = .error .castFailed) ∧
    (∀ v : Value, (∃ x, Value.cast Uuid v = .ok x) ∨
      Value.cast Uuid v = .error .castFailed) ∧
    (∀ (α : Type) [FromValue α],
      (∀ v : Value, (∃ x, Value.cast α v = .ok x) ∨
        Value.cast α v = .error .castFailed) →
      ∀ v : Value, (∃ x, Value.cast (Option α) v = .ok x) ∨
        Value.cast (Option α) v = .error .castFailed) := by
  refine ⟨?_, ?_, ?_, ?_, ?_, ?_, ?_, ?_, ?_⟩
  · intro v; cases v <;> first
    | exact Or.inl ⟨_, rfl⟩
    | exact Or.inr rfl
  · intro v; cases v <;> first
    | exact Or.inl ⟨_, rfl⟩
    | exact Or.inr rfl
  · intro v; cases v <;> first
    | exact Or.inl ⟨_, rfl⟩
    | exact Or.inr rfl
  · intro v; cases v <;> first
    | exact Or.inl ⟨_, rfl⟩
    | exact Or.inr rfl
  · intro v; cases v <;> first
    | exact Or.inl ⟨_, rfl⟩
    | exact Or.inr rfl
  · intro v; cases v <;> first
    | exact Or.inl ⟨_, rfl⟩
    | exact Or.inr rfl
  · intro v; cases v <;> first
    | exact Or.inl ⟨_, rfl⟩
    | exact Or.inr rfl
  · intro v
    cases v with
    | strand s =>
      cases h : parseUuid s with
      | none =>
        refine Or.inr ?_
        simp [Value.cast, FromValue.from_value, instFromValueUuid, uuidFromValue, h]
      | some id =>
        refine Or.inl ⟨id, ?_⟩
        simp [Value.cast, FromValue.from_value, instFromValueUuid, uuidFromValue, h]
    | thing t =>
      cases h : parseUuid t.id.toText with
      | none =>
        refine Or.inr ?_
        simp [Value.cast, FromValue.from_value, instFromValueUuid, uuidFromValue, h]
      | some id =>
        refine Or.inl ⟨id, ?_⟩
        simp [Value.cast, FromValue.from_value, instFromValueUuid, uuidFromValue, h]
    | _ => first
      | exact Or.inl ⟨_, rfl⟩
      | exact Or.inr rfl
  · intro α inst h v
    by_cases hv : v.isNoneOrNull = Bool.true
    · refine Or.inl ⟨Option.none, ?_⟩
      cases v <;> simp_all [Value.cast, FromValue.from_value, instFromValueOption,
        optionFromValue, Value.isNoneOrNull]
    · rw [optionCast_eq_map_some α v (by simpa using hv)]
      rcases h v with ⟨x, hx⟩ | he
      · exact Or.inl ⟨some x, by rw [hx]; rfl⟩
      · exact Or.inr (by rw [he]; rfl)

/-- Witness for C9's optional clause: the string target has the property
by the theorem's own first clause, hence so does the optional string
target, here at the null value. -/
theorem cast_total_never_other_error_witness :
    (∃ x, Value.cast (Option String) Value.vNull = .ok x) ∨
      Value.cast (Option String) Value.vNull = .error .castFailed :=
  cast_total_never_other_error.2.2.2.2.2.2.2.2 String
    cast_total_never_other_error.1 Value.vNull

/-! ### Claim about result normalization -/

/-- C1: `execute` consults only the first statement outcome of the engine
response and normalizes it by shape — an engine-level failure (of the call
or of that first statement) surfaces as the wrapped engine error; an empty
response gives the empty record list, not an error; an object gives
exactly one record; an array keeps exactly its object-shaped elements as
records, silently dropping every other element; any other shape gives the
empty record list.  Statement outcomes beyond the first never influence
the result, as the right-hand side mentions only `head?`. -/
theorem execute_result_normalization (qb : QueryBuilder) (strict : Bool) :
    qb.execute strict =
      match qb.db.ds.exec qb.sql qb.db.sess (some qb.args.entries) strict with
      | .error e => .error (.surrealdb e)
      | .ok responses =>
        match responses.head? with
        | Option.none => .ok []
        | some r =>
          match r.result with
          | .error e => .error (.surrealdb e)
          | .ok (.vObject obj) => .ok [Record.mk obj]
          | .ok (.array arr) => .ok (arr.filterMap (fun w =>
              match w with
              | .vObject obj => some (Record.mk obj)
              | _ => Option.none))
          | .ok _ => .ok [] := by
  unfold QueryBuilder.execute
  cases qb.db.ds.exec qb.sql qb.db.sess (some qb.args.entries) strict with
  | error e => rfl
  | ok responses =>
    cases responses with
    | nil => rfl
    | cons r rest =>
      cases hr : r.result with
      | error e => simp [hr, Except.map, Except.mapError]
      | ok v =>
        cases v <;> simp [hr, Except.map, Except.mapError]

end SurrealUtil
